import Mathlib

/-!
Verification development for the hybrid-numeric matrix engine of
`src/matrix.js` (Atlas-Server).

Shallow embedding conventions:
* JavaScript `Number` values are modelled as exact rationals `ℚ` (all matrix
  entries the engine manipulates are finite; float rounding inside arithmetic
  is idealised away).  The one place where float *representation* limits are
  semantically essential — the `Number(bigIntValue)` conversion used by
  `coerceToMode` — is modelled exactly: `jsNumberOfInt` rounds an integer to
  53 significant bits (round half to even), which is precisely what JavaScript
  does for every BigInt whose magnitude stays below the infinite range.
* JavaScript `BigInt` is `ℤ`, complex objects `{re, im}` are pairs of `ℚ`.
* A thrown JS exception is an `Except.error` carrying a condition name from
  the spec's error taxonomy.
* `Value.nan` stands for the IEEE NaN that JavaScript produces when a numeric
  operation is applied to an operand of the wrong shape (for example unary
  minus on a complex object).  Comparisons involving NaN are `false`, exactly
  as in JavaScript.
* Grids are total functions `ℕ → ℕ → Value`; all observations (`toArray`,
  `equals`, elimination loops) only ever read indices below `rows`/`cols`,
  so the values outside that rectangle are irrelevant junk.
-/

namespace Atlas

/-- One matrix entry: real number, arbitrary-precision integer, complex pair,
or the NaN junk value produced by ill-typed JS arithmetic. -/
inductive Value where
  | real (q : ℚ)
  | bigint (z : ℤ)
  | cplx (re im : ℚ)
  | nan
deriving DecidableEq

/-- The active numeric representation (`NumericMode` in matrix.js). -/
inductive NumericMode where
  | number
  | bigint
  | complex
deriving DecidableEq

/-- Error conditions of the spec's taxonomy (matrix.js throws `Error` with a
message; each constructor corresponds to one thrown message). -/
inductive Err where
  | badInput              -- "Input must be a 2D array"
  | invalidDims           -- "rows and cols must be positive integers"
  | jagged                -- "Jagged array not supported"
  | indexOutOfRange       -- "Index out of bounds"
  | dimensionMismatch     -- "Dimension mismatch for multiply"
  | divisionByZero        -- "Division by zero (...)"
  | nonExactDivision      -- "Non-exact division encountered with BigInt mode"
  | notSquare             -- "... only defined for square matrices"
  | unsupportedOperation  -- "... not supported ..." (inverse / orthogonality)
  | singular              -- "Matrix is singular (non-invertible)"
  | unsupportedCoercion   -- "Cannot coerce ..."
deriving DecidableEq

/-- `Math.abs` on the rational model of JS numbers. -/
def qabs (q : ℚ) : ℚ := if q < 0 then -q else q

/-- The default tolerance `1e-9` used throughout matrix.js. -/
def defaultTol : ℚ := 1 / 1000000000

/-- `Math.trunc` composed with `BigInt`: truncation toward zero. -/
def ratTrunc (q : ℚ) : ℤ := Int.tdiv q.num (q.den : ℤ)

/-- Number of low-order bits that must be dropped to fit `n` into the 53-bit
significand of an IEEE double (0 when `n ≤ 2^53` fails only at `n = 2^53`,
where one even bit is dropped losslessly). -/
def excessBits (n : ℕ) : ℕ :=
  if n < 2 ^ 53 then 0
  else excessBits (n / 2) + 1
termination_by n
decreasing_by
  simp_wf
  have h1 : 2 ^ 53 ≤ n := Nat.le_of_not_lt (by assumption)
  have h2 : 0 < n := lt_of_lt_of_le (pow_pos (by norm_num) 53) h1
  exact Nat.div_lt_self h2 (by norm_num)

/-- JavaScript's `Number(n)` on a natural number: round to nearest double
(53 significant bits, ties to even).  Faithful on the whole finite range of
doubles, which covers every input the claims touch. -/
def jsNumberOfNat (n : ℕ) : ℕ :=
  let e := excessBits n
  if e = 0 then n
  else
    let q := n / 2 ^ e
    let r := n % 2 ^ e
    let q2 := if 2 ^ e < 2 * r ∨ (2 * r = 2 ^ e ∧ q % 2 = 1) then q + 1 else q
    q2 * 2 ^ e

/-- JavaScript's `Number(z)` on a BigInt. -/
def jsNumberOfInt (z : ℤ) : ℤ := z.sign * (jsNumberOfNat z.natAbs : ℤ)

/-- `isComplex` from matrix.js (`val && typeof val === "object" && "re" in val`). -/
def isComplexV : Value → Bool
  | .cplx _ _ => true
  | _ => false

/-- `isBigInt` from matrix.js (`typeof val === "bigint"`). -/
def isBigIntV : Value → Bool
  | .bigint _ => true
  | _ => false

/-- `isNumber` from matrix.js (`typeof val === "number" && Number.isFinite(val)`);
NaN is a number but not finite, so it is rejected. -/
def isNumberV : Value → Bool
  | .real _ => true
  | _ => false

/-- Whether a value is of the shape the given mode's operation set expects. -/
def Value.inMode : NumericMode → Value → Bool
  | .number, .real _ => true
  | .bigint, .bigint _ => true
  | .complex, .cplx _ _ => true
  | _, _ => false

/-! ## The `NumOps` dispatcher

Each operation takes the active mode first, mirroring `new NumOps(mode)`.
Arms marked "ill-typed" model what JS does when an operand does not match the
mode (the result is NaN-like junk or `false`); the engine only reaches them
on matrices that violate the spec's representability invariant. -/

def NumOps.zero : NumericMode → Value
  | .complex => .cplx 0 0
  | .bigint => .bigint 0
  | .number => .real 0

def NumOps.one : NumericMode → Value
  | .complex => .cplx 1 0
  | .bigint => .bigint 1
  | .number => .real 1

def NumOps.add (μ : NumericMode) (a b : Value) : Value :=
  match μ, a, b with
  | .complex, .cplx ar ai, .cplx br bi => .cplx (ar + br) (ai + bi)
  | .bigint, .bigint x, .bigint y => .bigint (x + y)
  | .number, .real x, .real y => .real (x + y)
  | _, _, _ => .nan

def NumOps.sub (μ : NumericMode) (a b : Value) : Value :=
  match μ, a, b with
  | .complex, .cplx ar ai, .cplx br bi => .cplx (ar - br) (ai - bi)
  | .bigint, .bigint x, .bigint y => .bigint (x - y)
  | .number, .real x, .real y => .real (x - y)
  | _, _, _ => .nan

def NumOps.mul (μ : NumericMode) (a b : Value) : Value :=
  match μ, a, b with
  | .complex, .cplx ar ai, .cplx br bi =>
      .cplx (ar * br - ai * bi) (ar * bi + ai * br)
  | .bigint, .bigint x, .bigint y => .bigint (x * y)
  | .number, .real x, .real y => .real (x * y)
  | _, _, _ => .nan

/-- Division.  BigInt division is only allowed when exact (`a % b === 0n`);
`x / y` on exact integer quotients agrees with JS BigInt division. -/
def NumOps.div (μ : NumericMode) (a b : Value) : Except Err Value :=
  match μ, a, b with
  | .complex, .cplx ar ai, .cplx br bi =>
      let denom := br * br + bi * bi
      if denom = 0 then .error .divisionByZero
      else .ok (.cplx ((ar * br + ai * bi) / denom) ((ai * br - ar * bi) / denom))
  | .bigint, .bigint x, .bigint y =>
      if y = 0 then .error .divisionByZero
      else if x % y ≠ 0 then .error .nonExactDivision
      else .ok (.bigint (x / y))
  | .number, .real x, .real y =>
      if y = 0 then .error .divisionByZero else .ok (.real (x / y))
  | _, _, _ => .ok .nan

/-- Tolerance equality; exact for BigInt, componentwise `|·| < tol` otherwise.
Comparisons with an ill-typed operand are `false` (NaN semantics / strict
BigInt equality against a non-BigInt). -/
def NumOps.eq (μ : NumericMode) (a b : Value) (tol : ℚ) : Bool :=
  match μ, a, b with
  | .complex, .cplx ar ai, .cplx br bi =>
      decide (qabs (ar - br) < tol ∧ qabs (ai - bi) < tol)
  | .bigint, .bigint x, .bigint y => decide (x = y)
  | .number, .real x, .real y => decide (qabs (x - y) < tol)
  | _, _, _ => false

def NumOps.isZero (μ : NumericMode) (a : Value) (tol : ℚ) : Bool :=
  match μ, a with
  | .complex, .cplx ar ai => decide (qabs ar < tol ∧ qabs ai < tol)
  | .bigint, .bigint x => decide (x = 0)
  | .number, .real x => decide (qabs x < tol)
  | _, _ => false

def NumOps.conjugate (μ : NumericMode) (a : Value) : Value :=
  match μ, a with
  | .complex, .cplx ar ai => .cplx ar (-ai)
  | .complex, _ => .nan
  | _, v => v

/-- Mode precedence for two-operand operations (Complex > BigInt > Number). -/
def combineMode : NumericMode → NumericMode → NumericMode
  | .complex, _ => .complex
  | _, .complex => .complex
  | .bigint, _ => .bigint
  | _, .bigint => .bigint
  | _, _ => .number

/-- `coerceToMode` from matrix.js.  Note the two float conversions:
`Number(bigint)` rounds to the nearest double, and `BigInt(Math.trunc(q))`
truncates toward zero.  `BigInt(NaN)` throws in JS, modelled as an error;
`Number.isFinite(NaN)` is false so NaN falls into the `complex(0,0)` fallback
of the complex arm and stays NaN in the number arm. -/
def coerceToMode (val : Value) : NumericMode → Except Err Value
  | .complex =>
    match val with
    | .cplx a b => .ok (.cplx a b)
    | .bigint z => .ok (.cplx (jsNumberOfInt z : ℤ) 0)
    | .real q => .ok (.cplx q 0)
    | .nan => .ok (.cplx 0 0)
  | .bigint =>
    match val with
    | .bigint z => .ok (.bigint z)
    | .real q => .ok (.bigint (ratTrunc q))
    | .cplx _ _ => .error .unsupportedCoercion
    | .nan => .error .unsupportedCoercion
  | .number =>
    match val with
    | .cplx a b => if b = 0 then .ok (.real a) else .error .unsupportedCoercion
    | .bigint z => .ok (.real (jsNumberOfInt z : ℤ))
    | .real q => .ok (.real q)
    | .nan => .ok .nan

/-! ## The Matrix container -/

/-- A dense grid of values.  Indices at or beyond `rows`/`cols` are junk. -/
def Grid := ℕ → ℕ → Value

/-- View a rectangular list-of-lists as a grid (out-of-range reads are junk,
like `undefined` in JS; no in-range observation ever sees them). -/
def gridOfLists (ll : List (List Value)) : Grid :=
  fun i j => (ll.getD i []).getD j (.real 0)

/-- The matrix state: dimensions, entry grid, and the lazily cached mode
(`this._mode`, `null` until first detection).  The `_ops` field of matrix.js
is determined by `_mode` and therefore not modelled separately. -/
structure Matrix where
  rows : ℕ
  cols : ℕ
  grid : Grid
  mode : Option NumericMode

/-- The resolved mode of a matrix (meaningful once `mode` is set). -/
def Matrix.modeD (m : Matrix) : NumericMode := m.mode.getD .number

/-- `toArray()`: deep copy of the in-range entries. -/
def Matrix.toArray (m : Matrix) : List (List Value) :=
  (List.range m.rows).map fun i => (List.range m.cols).map fun j => m.grid i j

/-- Inner loop of `_detectMode`'s scan over one row: stops (`break`) at the
first complex entry; accumulates whether a BigInt entry was seen before it. -/
def scanRow : List Value → Bool × Bool
  | [] => (false, false)
  | v :: rest =>
    if isComplexV v then (true, false)
    else
      let s := scanRow rest
      (s.1, isBigIntV v || s.2)

/-- Outer loop of `_detectMode`'s scan: stops after the first row in which a
complex entry was found. -/
def scanGrid : List (List Value) → Bool × Bool
  | [] => (false, false)
  | row :: rest =>
    let s := scanRow row
    if s.1 then (true, s.2)
    else
      let t := scanGrid rest
      (t.1, s.2 || t.2)

/-- `_detectMode()`: classify and cache the mode; in BigInt mode additionally
truncate every (finite) Number entry to a BigInt in place.  The conversion is
applied pointwise to the whole grid function; matrix.js only touches the
in-range entries, and no observation reads out-of-range ones. -/
def Matrix.detectMode (m : Matrix) : Matrix :=
  let s := scanGrid m.toArray
  if s.1 then { m with mode := some .complex }
  else if s.2 then
    { m with
      mode := some .bigint,
      grid := fun i j =>
        match m.grid i j with
        | .real q => .bigint (ratTrunc q)
        | v => v }
  else { m with mode := some .number }

/-- `_ensureMode()`. -/
def Matrix.ensureMode (m : Matrix) : Matrix :=
  match m.mode with
  | some _ => m
  | none => m.detectMode

/-- `Matrix.fromArray(arr)`: reject a non-2D input (an empty outer array has
no `arr[0]` row), then the constructor rejects `cols = 0`, then jagged rows
are rejected; finally the entries are copied in and the mode detected. -/
def Matrix.fromArray (arr : List (List Value)) : Except Err Matrix :=
  if arr.isEmpty then .error .badInput
  else
    let r := arr.length
    let c := (arr.headD []).length
    if c = 0 then .error .invalidDims
    else if arr.any (fun row => row.length ≠ c) then .error .jagged
    else .ok (Matrix.detectMode ⟨r, c, gridOfLists arr, none⟩)

/-- `Matrix.identity(n, mode)`: ones on the diagonal in the requested mode,
with `_mode` set eagerly.  (matrix.js would throw for `n = 0`; the claims only
use `n ≥ 1`.) -/
def Matrix.identity (n : ℕ) (μ : NumericMode) : Matrix :=
  ⟨n, n, fun i j => if i = j then NumOps.one μ else NumOps.zero μ, some μ⟩

/-- `transpose()`: new matrix, mode re-detected from the copied data. -/
def Matrix.transpose (m : Matrix) : Matrix :=
  Matrix.detectMode ⟨m.cols, m.rows, fun i j => m.grid j i, none⟩

/-- `conjugateTranspose()`: like transpose but negating imaginary parts of
complex entries; other entry kinds are cloned unchanged. -/
def Matrix.conjugateTranspose (m : Matrix) : Matrix :=
  Matrix.detectMode
    ⟨m.cols, m.rows,
     fun i j =>
       match m.grid j i with
       | .cplx a b => .cplx a (-b)
       | v => v,
     none⟩

/-- Extract the value of a succeeded computation (callers only use it after
establishing success). -/
def exceptD (e : Except Err Value) (d : Value) : Value :=
  match e with
  | .ok v => v
  | .error _ => d

/-- One result entry of `multiply`: `sum over k of coerce(a[i][k]) * coerce(b[k][j])`,
accumulated left to right starting from the combined mode's zero; the first
failing coercion aborts (throws). -/
def mulEntry (cm : NumericMode) (a b : Matrix) (i j : ℕ) : Except Err Value :=
  (List.range a.cols).foldlM
    (fun sum k => do
      let av ← coerceToMode (a.grid i k) cm
      let bv ← coerceToMode (b.grid k j) cm
      pure (NumOps.add cm sum (NumOps.mul cm av bv)))
    (NumOps.zero cm)

/-- `multiply(other)`: dimension check, combined mode by precedence, then the
triple loop.  Entries are computed row-major and the first thrown coercion
error propagates; on success the result grid holds the entry values and the
result's mode is the combined mode. -/
def Matrix.multiply (a b : Matrix) : Except Err Matrix :=
  if a.cols ≠ b.rows then .error .dimensionMismatch
  else
    let a1 := a.ensureMode
    let b1 := b.ensureMode
    let cm := combineMode a1.modeD b1.modeD
    do
      let _ ← (List.range a.rows).foldlM
        (fun _ i =>
          (List.range b.cols).foldlM
            (fun _ j => do
              let _ ← mulEntry cm a1 b1 i j
              pure ())
            ())
        ()
      pure (⟨a.rows, b.cols,
             fun i j => exceptD (mulEntry cm a1 b1 i j) (NumOps.zero cm),
             some cm⟩ : Matrix)

/-- `equals(other, tol)`: same dimensions, same resolved mode, then
element-wise dispatcher equality. -/
def Matrix.equals (a b : Matrix) (tol : ℚ) : Bool :=
  if a.rows = b.rows ∧ a.cols = b.cols then
    let a1 := a.ensureMode
    let b1 := b.ensureMode
    if a1.modeD = b1.modeD then
      (List.range a.rows).all fun i =>
        (List.range a.cols).all fun j =>
          NumOps.eq a1.modeD (a1.grid i j) (b1.grid i j) tol
    else false
  else false

/-! ## Structural predicates -/

def Matrix.isZeroMatrix (m : Matrix) : Bool :=
  let m1 := m.ensureMode
  (List.range m1.rows).all fun i =>
    (List.range m1.cols).all fun j =>
      NumOps.isZero m1.modeD (m1.grid i j) defaultTol

def Matrix.isSquare (m : Matrix) : Bool := m.rows = m.cols

def Matrix.isRowMatrix (m : Matrix) : Bool := m.rows = 1 && 1 ≤ m.cols

def Matrix.isColumnMatrix (m : Matrix) : Bool := m.cols = 1 && 1 ≤ m.rows

def Matrix.isIdentity (m : Matrix) : Bool :=
  if m.rows = m.cols then
    let m1 := m.ensureMode
    (List.range m1.rows).all fun i =>
      (List.range m1.cols).all fun j =>
        if i = j then NumOps.eq m1.modeD (m1.grid i j) (NumOps.one m1.modeD) defaultTol
        else NumOps.isZero m1.modeD (m1.grid i j) defaultTol
  else false

/-- `isDiagonal()` reads `this._ops` without `_ensureMode()`; inside `type()`
the mode is always resolved first, which is the only way the claims reach it,
so it is modelled with the resolved dispatcher. -/
def Matrix.isDiagonal (m : Matrix) : Bool :=
  if m.rows = m.cols then
    (List.range m.rows).all fun i =>
      (List.range m.cols).all fun j =>
        if i ≠ j then NumOps.isZero m.modeD (m.grid i j) defaultTol else true
  else false

/-- `isScalarMatrix()`: diagonal with all diagonal entries equal to the top
left one (the loop starts from index 1, like matrix.js). -/
def Matrix.isScalarMatrix (m : Matrix) : Bool :=
  if m.isDiagonal then
    (List.range' 1 (m.rows - 1)).all fun i =>
      NumOps.eq m.modeD (m.grid i i) (m.grid 0 0) defaultTol
  else false

def Matrix.isSymmetric (m : Matrix) : Bool :=
  if m.rows = m.cols then
    let m1 := m.ensureMode
    (List.range m1.rows).all fun i =>
      (List.range (i + 1)).all fun j =>
        NumOps.eq m1.modeD (m1.grid i j) (m1.grid j i) defaultTol
  else false

def Matrix.isHermitian (m : Matrix) : Bool :=
  if m.rows = m.cols then
    let m1 := m.ensureMode
    (List.range m1.rows).all fun i =>
      (List.range m1.cols).all fun j =>
        NumOps.eq m1.modeD (m1.grid i j)
          (NumOps.conjugate m1.modeD (m1.grid j i)) defaultTol
  else false

def Matrix.isUpperTriangular (m : Matrix) : Bool :=
  if m.rows = m.cols then
    let m1 := m.ensureMode
    (List.range' 1 (m1.rows - 1)).all fun i =>
      (List.range i).all fun j =>
        NumOps.isZero m1.modeD (m1.grid i j) defaultTol
  else false

def Matrix.isLowerTriangular (m : Matrix) : Bool :=
  if m.rows = m.cols then
    let m1 := m.ensureMode
    (List.range m1.rows).all fun i =>
      (List.range' (i + 1) (m1.cols - (i + 1))).all fun j =>
        NumOps.isZero m1.modeD (m1.grid i j) defaultTol
  else false

/-- `isOrthogonal(tol)`: resolve mode, return `false` for non-square input,
throw for BigInt mode, otherwise test `A·Aᵗ` (or `A·Aᴴ`) against the identity. -/
def Matrix.isOrthogonal (m : Matrix) (tol : ℚ) : Except Err Bool :=
  let m1 := m.ensureMode
  if m1.rows ≠ m1.cols then .ok false
  else if m1.modeD = .bigint then .error .unsupportedOperation
  else
    let other := if m1.modeD = .complex then m1.conjugateTranspose else m1.transpose
    (m1.multiply other).map fun prod =>
      prod.equals (Matrix.identity m1.rows m1.modeD) tol

/-! ## Elimination engine -/

/-- Partial pivoting by "first nonzero": the first row `r` in `[i, n)` whose
column-`col` entry is not `isZero`. -/
def findPivot (μ : NumericMode) (A : Grid) (n i col : ℕ) : Option ℕ :=
  (List.range' i (n - i)).find? fun r => ! NumOps.isZero μ (A r col) defaultTol

/-- `[A[i], A[p]] = [A[p], A[i]]`. -/
def swapRows (A : Grid) (i p : ℕ) : Grid := fun r c =>
  if r = i then A p c
  else if r = p then A i c
  else A r c

/-- Determinant elimination of one row `r` below pivot row `i`:
subtract `(A[r][i] / pivot) * A[i][c]` from `A[r][c]` for `c ≥ i`. -/
def elimRowBelow (μ : NumericMode) (n i r : ℕ) (pivot : Value) (A : Grid) :
    Except Err Grid :=
  if NumOps.isZero μ (A r i) defaultTol then .ok A
  else
    (NumOps.div μ (A r i) pivot).map fun mult =>
      fun x c =>
        if x = r ∧ i ≤ c ∧ c < n then
          NumOps.sub μ (A x c) (NumOps.mul μ mult (A i c))
        else A x c

/-- Determinant elimination below pivot row `i` (rows `i+1 .. n-1`). -/
def elimBelow (μ : NumericMode) (n i : ℕ) (pivot : Value) (A : Grid) :
    Except Err Grid :=
  (List.range' (i + 1) (n - (i + 1))).foldlM
    (fun B r => elimRowBelow μ n i r pivot B) A

/-- JavaScript's final `det = -det` in `determinant()`.  For a Number or a
BigInt this is the numeric negation; in Complex mode `det` is an object and
unary minus produces NaN. -/
def jsNegEnd (μ : NumericMode) (det : Value) : Value :=
  match μ, det with
  | .bigint, .bigint z => .bigint (-z)
  | .number, .real q => .real (-q)
  | _, _ => .nan

/-- The `for (let i = 0; i < n; i++)` loop of `determinant()`, with the
accumulated product `det` and the swap-sign accumulator (`sign = true` means
an odd number of swaps so far).  `fuel = n - i` drives the recursion. -/
def detLoop (μ : NumericMode) (n : ℕ) :
    ℕ → ℕ → Grid → Value → Bool → Except Err Value
  | 0, _, _, det, sign => .ok (if sign then jsNegEnd μ det else det)
  | fuel + 1, i, A, det, sign =>
    match findPivot μ A n i i with
    | none => .ok (NumOps.zero μ)
    | some p =>
      let A1 := swapRows A i p
      let sign1 := if p ≠ i then ! sign else sign
      let pivot := A1 i i
      let det1 := NumOps.mul μ det pivot
      match elimBelow μ n i pivot A1 with
      | .error e => .error e
      | .ok A2 => detLoop μ n fuel (i + 1) A2 det1 sign1

/-- `determinant()` as a state transformer: the pair is (thrown-or-returned
result, receiver state after the call).  The squareness check precedes
`_ensureMode()`; all elimination then happens on a private copy. -/
def Matrix.determinantS (m : Matrix) : Except Err Value × Matrix :=
  if m.rows ≠ m.cols then (.error .notSquare, m)
  else
    let m1 := m.ensureMode
    let μ := m1.modeD
    (detLoop μ m1.rows m1.rows 0 m1.grid (NumOps.one μ) false, m1)

/-- Normalisation of the pivot row in Gauss-Jordan: divide every entry of row
`col` by the (pre-captured) pivot. -/
def normRow (μ : NumericMode) (twoN col : ℕ) (pivot : Value) (A : Grid) :
    Except Err Grid :=
  (List.range twoN).foldlM
    (fun B j =>
      (NumOps.div μ (B col j) pivot).map fun v =>
        fun r c => if r = col ∧ c = j then v else B r c)
    A

/-- Gauss-Jordan elimination of one non-pivot row (no division involved). -/
def elimOtherRow (μ : NumericMode) (twoN col r : ℕ) (A : Grid) : Grid :=
  let factor := A r col
  if NumOps.isZero μ factor defaultTol then A
  else
    fun x c =>
      if x = r ∧ c < twoN then
        NumOps.sub μ (A x c) (NumOps.mul μ factor (A col c))
      else A x c

/-- Gauss-Jordan elimination of every row other than the pivot row. -/
def elimOthers (μ : NumericMode) (n twoN col : ℕ) (A : Grid) : Grid :=
  (List.range n).foldl
    (fun B r => if r = col then B else elimOtherRow μ twoN col r B) A

/-- The column loop of `inverse()` over the augmented `[A | I]` grid. -/
def invLoop (μ : NumericMode) (n : ℕ) : ℕ → ℕ → Grid → Except Err Grid
  | 0, _, aug => .ok aug
  | fuel + 1, col, aug =>
    match findPivot μ aug n col col with
    | none => .error .singular
    | some p =>
      let a1 := swapRows aug col p
      let pivot := a1 col col
      match normRow μ (2 * n) col pivot a1 with
      | .error e => .error e
      | .ok a2 => invLoop μ n fuel (col + 1) (elimOthers μ n (2 * n) col a2)

/-- `inverse()` as a state transformer: squareness check, mode resolution,
immediate failure in BigInt mode, then Gauss-Jordan on `[A | I]` and
extraction of the right half. -/
def Matrix.inverseS (m : Matrix) : Except Err Matrix × Matrix :=
  if m.rows ≠ m.cols then (.error .notSquare, m)
  else
    let m1 := m.ensureMode
    if m1.modeD = .bigint then (.error .unsupportedOperation, m1)
    else
      let n := m1.rows
      let μ := m1.modeD
      let aug0 : Grid := fun i j =>
        if j < n then m1.grid i j
        else if j - n = i then NumOps.one μ else NumOps.zero μ
      ((invLoop μ n n 0 aug0).map fun aug =>
        (⟨n, n, fun i j => aug i (n + j), some μ⟩ : Matrix), m1)

/-- Rank elimination for one column `j > col`: if the pivot-row entry at `j`
is nonzero, divide it by the pivot and subtract `A[i][col] * mult` from
`A[i][j]` for every row `i` below the pivot row. -/
def rankElimCol (μ : NumericMode) (mrows col row : ℕ) (pivot : Value)
    (A : Grid) (j : ℕ) : Except Err Grid :=
  if NumOps.isZero μ (A row j) defaultTol then .ok A
  else
    (NumOps.div μ (A row j) pivot).map fun mult =>
      fun i c =>
        if c = j ∧ row + 1 ≤ i ∧ i < mrows then
          NumOps.sub μ (A i c) (NumOps.mul μ (A i col) mult)
        else A i c

/-- Rank elimination across the columns right of the pivot column. -/
def rankElim (μ : NumericMode) (mrows n col row : ℕ) (pivot : Value)
    (A : Grid) : Except Err Grid :=
  (List.range' (col + 1) (n - (col + 1))).foldlM
    (rankElimCol μ mrows col row pivot) A

/-- The `for (col …)` loop of `rank()`: advance the row and rank counters only
when a pivot is found in the current column.  (The `tol` parameter of `rank`
is never forwarded — every `isZero` uses the default tolerance.) -/
def rankLoop (μ : NumericMode) (mrows n : ℕ) :
    ℕ → ℕ → ℕ → Grid → ℕ → Except Err ℕ
  | 0, _, _, _, rk => .ok rk
  | fuel + 1, col, row, A, rk =>
    if mrows ≤ row then .ok rk
    else
      match findPivot μ A mrows row col with
      | none => rankLoop μ mrows n fuel (col + 1) row A rk
      | some sel =>
        let A1 := swapRows A row sel
        let pivot := A1 row col
        match rankElim μ mrows n col row pivot A1 with
        | .error e => .error e
        | .ok A2 => rankLoop μ mrows n fuel (col + 1) (row + 1) A2 (rk + 1)

/-- `rank()` as a state transformer.  Despite its own comment, the BigInt
branch only emits a `console.warn` and does NOT convert anything: the row
reduction itself runs in whatever mode was resolved. -/
def Matrix.rankS (m : Matrix) : Except Err ℕ × Matrix :=
  let m1 := m.ensureMode
  (rankLoop m1.modeD m1.rows m1.cols m1.cols 0 0 m1.grid 0, m1)

/-- `type()`: the ordered, first-match-wins predicate chain. -/
def Matrix.type (m : Matrix) : String :=
  let m1 := m.ensureMode
  if m1.isZeroMatrix then "Zero Matrix"
  else if m1.isIdentity then "Identity Matrix"
  else if m1.isDiagonal then "Diagonal Matrix"
  else if m1.isScalarMatrix then "Scalar Matrix"
  else if m1.isHermitian then "Hermitian Matrix"
  else if m1.isSymmetric then "Symmetric Matrix"
  else if m1.isUpperTriangular then "Upper Triangular Matrix"
  else if m1.isLowerTriangular then "Lower Triangular Matrix"
  else if m1.isRowMatrix then "Row Matrix"
  else if m1.isColumnMatrix then "Column Matrix"
  else if m1.isSquare then "Square Matrix"
  else "Rectangular Matrix (General)"

/-! ## Spec-side definitions

The following definitions are written from the specification's wording, to be
compared with the code-side definitions above. -/

/-- Spec §4.1: "scans every entry; if any entry is Complex, mode = Complex;
else if any entry is ArbitraryInteger, mode = ArbitraryInteger; else Real". -/
def specMode (m : Matrix) : NumericMode :=
  if m.toArray.any fun row => row.any isComplexV then .complex
  else if m.toArray.any fun row => row.any isBigIntV then .bigint
  else .number

/-- Spec §4.1 classifier outcome: the detected mode is cached, and in
ArbitraryInteger mode "every Real entry present is silently truncated toward
zero and converted to ArbitraryInteger". -/
def specDetect (m : Matrix) : Matrix :=
  match specMode m with
  | .complex => { m with mode := some .complex }
  | .bigint =>
    { m with
      mode := some .bigint,
      grid := fun i j =>
        match m.grid i j with
        | .real q => .bigint (ratTrunc q)
        | v => v }
  | .number => { m with mode := some .number }

/-- The ordered predicate/label chain of spec §4.7. -/
def typeSpecList (m : Matrix) : List (Bool × String) :=
  [(m.isZeroMatrix, "Zero Matrix"),
   (m.isIdentity, "Identity Matrix"),
   (m.isDiagonal, "Diagonal Matrix"),
   (m.isScalarMatrix, "Scalar Matrix"),
   (m.isHermitian, "Hermitian Matrix"),
   (m.isSymmetric, "Symmetric Matrix"),
   (m.isUpperTriangular, "Upper Triangular Matrix"),
   (m.isLowerTriangular, "Lower Triangular Matrix"),
   (m.isRowMatrix, "Row Matrix"),
   (m.isColumnMatrix, "Column Matrix"),
   (m.isSquare, "Square Matrix")]

/-- Spec §4.7: label of the first predicate that holds, with the
general-rectangular fallback. -/
def typeSpec (m : Matrix) : String :=
  ((((typeSpecList m.ensureMode).find? fun p => p.1).map fun p => p.2).getD
    "Rectangular Matrix (General)")

/-- A guard/label chain evaluated as nested if-then-else, the shape of the
`type()` body. -/
def chainIte : List (Bool × String) → String → String
  | [], d => d
  | (b, s) :: rest, d => if b then s else chainIte rest d

/-- Spec-side determinant trace: replays the elimination schedule (same pivot
search, same row swaps, same elimination steps) but records the outcome
abstractly: `none` when some column has no pivot at or below the current row
(the singular early exit), otherwise the list of selected pivots together
with the number of row swaps performed. -/
def detTrace (μ : NumericMode) (n : ℕ) :
    ℕ → ℕ → Grid → Except Err (Option (List Value × ℕ))
  | 0, _, _ => .ok (some ([], 0))
  | fuel + 1, i, A =>
    match findPivot μ A n i i with
    | none => .ok none
    | some p =>
      let A1 := swapRows A i p
      let pivot := A1 i i
      match elimBelow μ n i pivot A1 with
      | .error e => .error e
      | .ok A2 =>
        match detTrace μ n fuel (i + 1) A2 with
        | .error e => .error e
        | .ok none => .ok none
        | .ok (some (pivs, s)) =>
          .ok (some (pivot :: pivs, (if p ≠ i then 1 else 0) + s))

/-- The product of the selected pivots, accumulated from the multiplicative
identity in selection order. -/
def pivotProduct (μ : NumericMode) (pivs : List Value) : Value :=
  pivs.foldl (NumOps.mul μ) (NumOps.one μ)

/-- Spec §4.6 determinant contract, as amended: the additive identity on the
singular early exit; otherwise the product of the selected pivots, run
through the final `det = -det` of matrix.js when the number of swaps is odd
(which is the mode's negation for Real/ArbitraryInteger but NaN for Complex). -/
def interpDet (μ : NumericMode) : Option (List Value × ℕ) → Value
  | none => NumOps.zero μ
  | some (pivs, s) =>
    if s % 2 = 1 then jsNegEnd μ (pivotProduct μ pivs) else pivotProduct μ pivs

/-! Spec-side exact-integer rank: the same row-echelon schedule as `rank()`,
but expressed directly over arbitrary-precision integers (`ℤ`), with division
allowed only when exact.  Claim C10 states that `rank()` on an
ArbitraryInteger-mode matrix computes exactly this — no conversion to Real. -/

/-- An integer grid. -/
def IGrid := ℕ → ℕ → ℤ

/-- Tag every entry of an integer grid as a BigInt value. -/
def liftI (B : IGrid) : Grid := fun i j => .bigint (B i j)

/-- Exact integer division: fails on zero divisors and non-exact quotients. -/
def intDivE (a b : ℤ) : Except Err ℤ :=
  if b = 0 then .error .divisionByZero
  else if a % b ≠ 0 then .error .nonExactDivision
  else .ok (a / b)

def findPivotInt (B : IGrid) (mrows row col : ℕ) : Option ℕ :=
  (List.range' row (mrows - row)).find? fun r => ! decide (B r col = 0)

def swapRowsInt (B : IGrid) (i p : ℕ) : IGrid := fun r c =>
  if r = i then B p c
  else if r = p then B i c
  else B r c

def rankElimColInt (mrows col row : ℕ) (pivot : ℤ) (B : IGrid) (j : ℕ) :
    Except Err IGrid :=
  if B row j = 0 then .ok B
  else
    (intDivE (B row j) pivot).map fun mult =>
      fun i c =>
        if c = j ∧ row + 1 ≤ i ∧ i < mrows then B i c - B i col * mult
        else B i c

def rankElimInt (mrows n col row : ℕ) (pivot : ℤ) (B : IGrid) :
    Except Err IGrid :=
  (List.range' (col + 1) (n - (col + 1))).foldlM
    (rankElimColInt mrows col row pivot) B

def rankLoopInt (mrows n : ℕ) : ℕ → ℕ → ℕ → IGrid → ℕ → Except Err ℕ
  | 0, _, _, _, rk => .ok rk
  | fuel + 1, col, row, B, rk =>
    if mrows ≤ row then .ok rk
    else
      match findPivotInt B mrows row col with
      | none => rankLoopInt mrows n fuel (col + 1) row B rk
      | some sel =>
        let B1 := swapRowsInt B row sel
        let pivot := B1 row col
        match rankElimInt mrows n col row pivot B1 with
        | .error e => .error e
        | .ok B2 => rankLoopInt mrows n fuel (col + 1) (row + 1) B2 (rk + 1)

/-- The exact rational pair `(re, im)` a value denotes (used to express
losslessness of coercions). -/
def denote2 : Value → ℚ × ℚ
  | .real q => (q, 0)
  | .bigint z => ((z : ℚ), 0)
  | .cplx a b => (a, b)
  | .nan => (0, 0)

/-- Values whose coercion into Complex mode is exact: everything except
arbitrary-precision integers beyond the 53-bit double significand (and the
NaN junk value, which is not a mode value at all). -/
def smallValue : Value → Prop
  | .bigint z => z.natAbs ≤ 2 ^ 53
  | .nan => False
  | _ => True

/-! ## Helper lemmas -/

theorem ensureMode_resolved (m : Matrix) (μ : NumericMode) (h : m.mode = some μ) :
    m.ensureMode = m := by
  simp [Matrix.ensureMode, h]

theorem modeD_resolved (m : Matrix) (μ : NumericMode) (h : m.mode = some μ) :
    m.modeD = μ := by
  simp [Matrix.modeD, h]

/-! ## Claim C6 -/

/-- Claim C6 (amended): for every matrix whose mode is already resolved, calls
to `determinant()`, `inverse()` and `rank()` leave the receiver completely
unmodified (grid, row count, column count and cached mode), whether they
return a result or fail: all elimination work happens on private copies.
(When the mode is *not* yet resolved, the implicit `_ensureMode()` can
rewrite Real entries of a mixed Real/BigInt grid in place — see the
counterexample.) -/
theorem readOps_preserve_receiver (m : Matrix) (μ : NumericMode)
    (h : m.mode = some μ) :
    (Matrix.determinantS m).2 = m ∧ (Matrix.inverseS m).2 = m ∧
      (Matrix.rankS m).2 = m := by
  have he : m.ensureMode = m := ensureMode_resolved m μ h
  refine ⟨?_, ?_, ?_⟩
  · unfold Matrix.determinantS
    split
    · rfl
    · simp [he]
  · unfold Matrix.inverseS
    split
    · rfl
    · simp only [he]
      split <;> rfl
  · unfold Matrix.rankS
    simp [he]

/-- Witness for C6 at a concrete resolved 1×1 real matrix. -/
theorem readOps_preserve_receiver_witness :
    (Matrix.determinantS ⟨1, 1, fun _ _ => Value.real 1, some .number⟩).2 =
        (⟨1, 1, fun _ _ => Value.real 1, some .number⟩ : Matrix) ∧
      (Matrix.inverseS ⟨1, 1, fun _ _ => Value.real 1, some .number⟩).2 =
        (⟨1, 1, fun _ _ => Value.real 1, some .number⟩ : Matrix) ∧
      (Matrix.rankS ⟨1, 1, fun _ _ => Value.real 1, some .number⟩).2 =
        (⟨1, 1, fun _ _ => Value.real 1, some .number⟩ : Matrix) :=
  readOps_preserve_receiver _ .number rfl

/-- Counterexample to C6 as stated: on a matrix whose mode is not yet
resolved (fresh `set` invalidates the cache) and whose grid mixes a BigInt
with a fractional Real, `rank()` resolves the mode and thereby rewrites the
Real entry `1/2` to the BigInt `0` inside the receiver itself. -/
theorem readOps_preserve_receiver_cex :
    (Matrix.rankS ⟨1, 2, gridOfLists [[.bigint 3, .real (1/2)]], none⟩).2.grid 0 1 =
        Value.bigint 0 ∧
      (⟨1, 2, gridOfLists [[.bigint 3, .real (1/2)]], none⟩ : Matrix).grid 0 1 =
        Value.real (1/2) ∧
      (Matrix.rankS ⟨1, 2, gridOfLists [[.bigint 3, .real (1/2)]], none⟩).2 ≠
        (⟨1, 2, gridOfLists [[.bigint 3, .real (1/2)]], none⟩ : Matrix) := by
  refine ⟨by with_unfolding_all rfl, by with_unfolding_all rfl, fun hcontra => ?_⟩
  have h2 := congrArg (fun x => Matrix.grid x 0 1) hcontra
  exact absurd h2 (by with_unfolding_all decide)

/-! ## Claim C7 -/

/-- Claim C7 (amended): `inverse()` on an ArbitraryInteger-mode matrix never
returns a matrix; for a *square* matrix it fails with UnsupportedOperation
(no rational fallback), while for a non-square matrix the squareness check
fires first and it fails with the SizeMismatch condition instead. -/
theorem inverse_bigint_fails (m : Matrix) (h : m.mode = some .bigint) :
    (m.rows = m.cols → (Matrix.inverseS m).1 = .error .unsupportedOperation) ∧
      (m.rows ≠ m.cols → (Matrix.inverseS m).1 = .error .notSquare) := by
  have he : m.ensureMode = m := ensureMode_resolved m .bigint h
  constructor <;> intro hsq <;>
    simp [Matrix.inverseS, hsq, he, modeD_resolved m .bigint h]

/-- Witness for C7 at a concrete square 1×1 BigInt matrix. -/
theorem inverse_bigint_fails_witness :
    (Matrix.inverseS ⟨1, 1, fun _ _ => Value.bigint 2, some .bigint⟩).1 =
      .error .unsupportedOperation :=
  (inverse_bigint_fails _ rfl).1 rfl

/-- Counterexample to C7 as stated: a non-square ArbitraryInteger-mode matrix
makes `inverse()` fail with the squareness error, not UnsupportedOperation. -/
theorem inverse_bigint_fails_cex :
    (Matrix.inverseS
        ⟨1, 2, fun _ j => Value.bigint (if j = 0 then 1 else 2), some .bigint⟩).1 =
      .error .notSquare ∧ Err.notSquare ≠ Err.unsupportedOperation := by
  exact ⟨by with_unfolding_all rfl, by decide⟩

/-! ## Claim C8 -/

/-- Claim C8 (amended): `isOrthogonal(tol)` on an ArbitraryInteger-mode
matrix fails with UnsupportedOperation only when the matrix is square; a
non-square matrix short-circuits to `false` before the mode check, so the
failure is not shape-independent. -/
theorem isOrthogonal_bigint (m : Matrix) (h : m.mode = some .bigint) :
    (m.rows = m.cols →
        Matrix.isOrthogonal m defaultTol = .error .unsupportedOperation) ∧
      (m.rows ≠ m.cols → Matrix.isOrthogonal m defaultTol = .ok false) := by
  have he : m.ensureMode = m := ensureMode_resolved m .bigint h
  constructor <;> intro hsq <;>
    simp [Matrix.isOrthogonal, hsq, he, modeD_resolved m .bigint h]

/-- Witness for C8 at a concrete square 1×1 BigInt matrix. -/
theorem isOrthogonal_bigint_witness :
    Matrix.isOrthogonal ⟨1, 1, fun _ _ => Value.bigint 2, some .bigint⟩
      defaultTol = .error .unsupportedOperation :=
  (isOrthogonal_bigint _ rfl).1 rfl

/-- Counterexample to C8 as stated: a non-square ArbitraryInteger-mode matrix
makes `isOrthogonal` return `false` normally instead of failing. -/
theorem isOrthogonal_bigint_cex :
    Matrix.isOrthogonal
        ⟨1, 2, fun _ j => Value.bigint (if j = 0 then 1 else 2), some .bigint⟩
        defaultTol = .ok false ∧
      (Except.ok false : Except Err Bool) ≠ .error .unsupportedOperation := by
  exact ⟨by with_unfolding_all rfl, fun hh => Except.noConfusion hh⟩

/-! ## Claim C5 -/

theorem excessBits_of_lt (n : ℕ) (h : n < 2 ^ 53) : excessBits n = 0 := by
  rw [excessBits, if_pos h]

theorem jsNumberOfInt_small (z : ℤ) (h : z.natAbs ≤ 2 ^ 53) :
    jsNumberOfInt z = z := by
  rcases lt_or_eq_of_le h with hlt | heq
  · have e0 : excessBits z.natAbs = 0 := excessBits_of_lt _ hlt
    simp [jsNumberOfInt, jsNumberOfNat, e0, Int.sign_mul_abs]
  · have e1 : excessBits (2 ^ 53) = 1 := by
      rw [excessBits]
      norm_num
      rw [excessBits]
      norm_num
    have hn : jsNumberOfNat (2 ^ 53) = 2 ^ 53 := by
      simp only [jsNumberOfNat, e1]
      norm_num
    rw [jsNumberOfInt, heq, hn]
    rw [show ((2 ^ 53 : ℕ) : ℤ) = (z.natAbs : ℤ) by rw [heq]]
    exact Int.sign_mul_natAbs z

/-- Claim C5 (amended): coercion into Complex mode never fails, and it is
lossless for every Real value, every Complex value, and every
ArbitraryInteger value of magnitude at most `2^53`.  Losslessness does not
extend to larger integers: `Number(bigint)` rounds them to the nearest
double (see the counterexample). -/
theorem coerce_into_complex (v : Value) :
    ∃ w, coerceToMode v .complex = .ok w ∧
      (smallValue v → denote2 w = denote2 v) := by
  cases v with
  | real q => exact ⟨_, rfl, fun _ => rfl⟩
  | cplx a b => exact ⟨_, rfl, fun _ => rfl⟩
  | nan => exact ⟨_, rfl, fun hf => absurd hf (by simp [smallValue])⟩
  | bigint z =>
    refine ⟨_, rfl, fun hs => ?_⟩
    have hs2 : z.natAbs ≤ 2 ^ 53 := hs
    simp [denote2, jsNumberOfInt_small z hs2]

/-- Witness for C5 at the ArbitraryInteger value 3 (within the exact range). -/
theorem coerce_into_complex_witness :
    ∃ w, coerceToMode (Value.bigint 3) .complex = .ok w ∧
      denote2 w = denote2 (Value.bigint 3) := by
  obtain ⟨w, h1, h2⟩ := coerce_into_complex (Value.bigint 3)
  exact ⟨w, h1, h2 (by norm_num [smallValue])⟩

/-- Counterexample to C5 as stated: coercing the ArbitraryInteger
`2^53 + 1 = 9007199254740993` into Complex mode goes through JavaScript's
`Number(val)`, which rounds to the even neighbouring double
`9007199254740992`; the real component does not represent the input exactly. -/
theorem coerce_into_complex_cex :
    (coerceToMode (Value.bigint 9007199254740993) .complex).map denote2 ≠
      .ok (denote2 (Value.bigint 9007199254740993)) := by
  have e1 : excessBits 9007199254740993 = 1 := by
    rw [excessBits]
    norm_num
    rw [excessBits]
    norm_num
  have h2 : jsNumberOfNat 9007199254740993 = 9007199254740992 := by
    simp only [jsNumberOfNat, e1]
    norm_num
  have h3 : jsNumberOfInt 9007199254740993 = 9007199254740992 := by
    rw [jsNumberOfInt, show (9007199254740993 : ℤ).natAbs = 9007199254740993 from rfl, h2]
    rfl
  simp only [coerceToMode, h3, denote2, Except.map, Prod.mk.injEq]
  intro hcontra
  have h4 := congrArg Prod.fst (Except.ok.inj hcontra)
  norm_num at h4

/-! ## Claim C4 -/

theorem scanRow_fst (l : List Value) : (scanRow l).1 = l.any isComplexV := by
  induction l with
  | nil => rfl
  | cons v rest ih =>
    by_cases hv : isComplexV v = true <;> simp [scanRow, hv, ih]

theorem scanRow_snd (l : List Value) (h : l.any isComplexV = false) :
    (scanRow l).2 = l.any isBigIntV := by
  induction l with
  | nil => rfl
  | cons v rest ih =>
    simp only [List.any_cons, Bool.or_eq_false_iff] at h
    simp [scanRow, h.1, ih h.2]

theorem scanGrid_fst (ll : List (List Value)) :
    (scanGrid ll).1 = ll.any fun row => row.any isComplexV := by
  induction ll with
  | nil => rfl
  | cons row rest ih =>
    by_cases hr : (scanRow row).1 = true
    · simp [scanGrid, hr, ← scanRow_fst]
    · simp only [Bool.not_eq_true] at hr
      simp [scanGrid, hr, ih, scanRow_fst row ▸ hr]

theorem scanGrid_snd (ll : List (List Value))
    (h : (ll.any fun row => row.any isComplexV) = false) :
    (scanGrid ll).2 = ll.any fun row => row.any isBigIntV := by
  induction ll with
  | nil => rfl
  | cons row rest ih =>
    simp only [List.any_cons, Bool.or_eq_false_iff] at h
    have h1 : (scanRow row).1 = false := by rw [scanRow_fst]; exact h.1
    simp [scanGrid, h1, scanRow_snd row h.1, ih h.2]

theorem detectMode_eq_specDetect (m : Matrix) : m.detectMode = specDetect m := by
  unfold Matrix.detectMode specDetect specMode
  by_cases hc : (m.toArray.any fun row => row.any isComplexV) = true
  · simp [scanGrid_fst, hc]
  · simp only [Bool.not_eq_true] at hc
    by_cases hb : (m.toArray.any fun row => row.any isBigIntV) = true
    · simp [scanGrid_fst, scanGrid_snd m.toArray hc, hc, hb]
    · simp only [Bool.not_eq_true] at hb
      simp [scanGrid_fst, scanGrid_snd m.toArray hc, hc, hb]

/-- Claim C4: `_detectMode()` is total and agrees with the spec's classifier
on every matrix: mode Complex when any entry is Complex, otherwise mode
ArbitraryInteger when any entry is ArbitraryInteger (with every Real entry
truncated toward zero into an ArbitraryInteger), otherwise mode Real; in the
two non-converting cases the grid is untouched. -/
theorem detectMode_follows_spec (m : Matrix) : m.detectMode = specDetect m :=
  detectMode_eq_specDetect m

/-! ## Claim C9 -/

theorem chainIte_eq_find (l : List (Bool × String)) (d : String) :
    chainIte l d = (((l.find? fun p => p.1).map fun p => p.2).getD d) := by
  induction l with
  | nil => rfl
  | cons p rest ih =>
    obtain ⟨b, s⟩ := p
    cases b <;> simp [chainIte, List.find?, ih]

/-- Claim C9: `type()` returns the label of the first predicate that holds in
the fixed order ZeroMatrix, Identity, Diagonal, ScalarMatrix, Hermitian,
Symmetric, UpperTriangular, LowerTriangular, RowMatrix, ColumnMatrix, Square,
with the general-rectangular fallback; and `Matrix.identity(3)` is classified
as "Identity Matrix". -/
theorem type_first_match :
    (∀ m : Matrix, m.type = typeSpec m) ∧
      Matrix.type (Matrix.identity 3 .number) = "Identity Matrix" := by
  constructor
  · intro m
    have hshape : m.type =
        chainIte (typeSpecList m.ensureMode) "Rectangular Matrix (General)" := rfl
    rw [hshape, chainIte_eq_find]
    rfl
  · with_unfolding_all rfl

/-! ## Claim C3 -/

/-- Reading back a matrix built over a rectangular list-of-lists recovers the
list, provided the grid agrees with the list on the in-range rectangle. -/
theorem toArray_mk (r c : ℕ) (g : Grid) (mo : Option NumericMode)
    (arr : List (List Value)) (hr : arr.length = r)
    (hc : ∀ row ∈ arr, row.length = c)
    (hg : ∀ i, i < r → ∀ j, j < c → g i j = (arr.getD i []).getD j (.real 0)) :
    Matrix.toArray ⟨r, c, g, mo⟩ = arr := by
  unfold Matrix.toArray
  apply List.ext_getElem
  · simp [hr]
  · intro i h1 h2
    simp only [List.length_map, List.length_range] at h1
    rw [List.getElem_map, List.getElem_range]
    apply List.ext_getElem
    · simp only [List.length_map, List.length_range]
      exact (hc _ (List.getElem_mem h2)).symm
    · intro j hj1 hj2
      simp only [List.length_map, List.length_range] at hj1
      rw [List.getElem_map, List.getElem_range]
      have hgd : arr.getD i [] = arr[i] := by
        rw [List.getD_eq_getElem?_getD, List.getElem?_eq_getElem h2, Option.getD_some]
      show g i j = arr[i][j]
      rw [hg i h1 j hj1, hgd, List.getD_eq_getElem?_getD,
        List.getElem?_eq_getElem hj2, Option.getD_some]

/-- Claim C3 (amended): `Matrix.fromArray(g).toArray()` deep-equals `g` for
every well-formed rectangular non-empty `g` — except when `g` mixes
ArbitraryInteger entries with Real entries in the absence of any Complex
entry, in which case mode detection rewrites the Real entries to truncated
integers (see the counterexample).  The round trip therefore holds whenever
`g` contains a Complex entry, or no ArbitraryInteger entry, or no Real entry. -/
theorem fromArray_roundtrip (arr : List (List Value)) (c : ℕ)
    (hne : arr ≠ []) (hc : (arr.headD []).length = c) (hcpos : 0 < c)
    (hrect : ∀ row ∈ arr, row.length = c)
    (hmix : (∃ row ∈ arr, ∃ v ∈ row, isComplexV v = true) ∨
        (∀ row ∈ arr, ∀ v ∈ row, isBigIntV v = false) ∨
        (∀ row ∈ arr, ∀ v ∈ row, isNumberV v = false)) :
    (Matrix.fromArray arr).map Matrix.toArray = .ok arr := by
  have hemp : arr.isEmpty = false := List.isEmpty_eq_false.mpr hne
  have hjag : (arr.any fun row => row.length ≠ c) = false := by
    rw [List.any_eq_false]
    intro row hrow
    simp [hrect row hrow]
  unfold Matrix.fromArray
  rw [hemp, hc]
  simp only [Bool.false_eq_true, if_false, hjag, Nat.pos_iff_ne_zero.mp hcpos,
    if_false]
  have hbase : Matrix.toArray ⟨arr.length, c, gridOfLists arr, none⟩ = arr :=
    toArray_mk _ _ _ _ _ rfl hrect (fun _ _ _ _ => rfl)
  rw [detectMode_eq_specDetect]
  unfold specDetect specMode
  rw [hbase]
  by_cases hcx : (arr.any fun row => row.any isComplexV) = true
  · rw [if_pos hcx]
    rw [Except.map]
    exact congrArg Except.ok (toArray_mk _ _ _ _ _ rfl hrect (fun _ _ _ _ => rfl))
  · rw [if_neg hcx]
    simp only [Bool.not_eq_true] at hcx
    by_cases hbg : (arr.any fun row => row.any isBigIntV) = true
    · -- BigInt mode: by `hmix`, either no Real entry exists (the conversion
      -- is then the identity on every in-range entry) or no BigInt exists
      -- (contradiction with `hbg`), or a Complex entry exists
      -- (contradiction with `hcx`).
      rw [if_pos hbg]
      rw [Except.map]
      refine congrArg Except.ok (toArray_mk _ _ _ _ _ rfl hrect ?_)
      intro i hi j hj
      have hilen : i < arr.length := hi
      have harr : arr.getD i [] = arr[i] := by
        rw [List.getD_eq_getElem?_getD, List.getElem?_eq_getElem hilen, Option.getD_some]
      have hrowmem : arr[i] ∈ arr := List.getElem_mem hilen
      have hlen : j < arr[i].length := by
        rw [hrect _ hrowmem]
        exact hj
      have hmem : arr[i].getD j (.real 0) ∈ arr[i] := by
        rw [List.getD_eq_getElem?_getD, List.getElem?_eq_getElem hlen, Option.getD_some]
        exact List.getElem_mem hlen
      rcases hmix with hx | hnb | hnr
      · exfalso
        obtain ⟨row, hrow, v, hv, hcv⟩ := hx
        have hany : (arr.any fun row => row.any isComplexV) = true := by
          rw [List.any_eq_true]
          exact ⟨row, hrow, by rw [List.any_eq_true]; exact ⟨v, hv, hcv⟩⟩
        rw [hcx] at hany
        exact Bool.false_ne_true hany
      · exfalso
        rw [List.any_eq_true] at hbg
        obtain ⟨row, hrow, hvv⟩ := hbg
        rw [List.any_eq_true] at hvv
        obtain ⟨v, hv, hbv⟩ := hvv
        rw [hnb row hrow v hv] at hbv
        exact Bool.false_ne_true hbv
      · have hnotreal := hnr _ hrowmem _ hmem
        show (match gridOfLists arr i j with
          | Value.real q => Value.bigint (ratTrunc q)
          | v => v) = (arr.getD i []).getD j (.real 0)
        unfold gridOfLists
        rw [harr]
        cases hval : arr[i].getD j (.real 0) with
        | real q =>
          rw [hval] at hnotreal
          simp [isNumberV] at hnotreal
        | bigint z => rfl
        | cplx a b => rfl
        | nan => rfl
    · rw [if_neg hbg]
      rw [Except.map]
      exact congrArg Except.ok (toArray_mk _ _ _ _ _ rfl hrect (fun _ _ _ _ => rfl))

/-- Witness for C3 on a concrete all-Real rectangular array. -/
theorem fromArray_roundtrip_witness :
    (Matrix.fromArray [[.real 1, .real 2], [.real 3, .real 4]]).map
        Matrix.toArray =
      .ok [[.real 1, .real 2], [.real 3, .real 4]] :=
  fromArray_roundtrip _ 2 (by simp) rfl (by norm_num)
    (by with_unfolding_all decide)
    (.inr (.inl (by with_unfolding_all decide)))

/-- Counterexample to C3 as stated: a grid mixing an ArbitraryInteger with a
fractional Real does not round-trip — the Real entry `1/2` comes back as the
truncated ArbitraryInteger `0`. -/
theorem fromArray_roundtrip_cex :
    (Matrix.fromArray [[.bigint 1, .real (1/2)]]).map Matrix.toArray =
        .ok [[.bigint 1, .bigint 0]] ∧
      ([[Value.bigint 1, Value.bigint 0]] : List (List Value)) ≠
        [[.bigint 1, .real (1/2)]] := by
  constructor
  · with_unfolding_all rfl
  · with_unfolding_all decide

/-! ## Claim C10 -/

theorem div_bigint_lift (a b : ℤ) :
    NumOps.div .bigint (.bigint a) (.bigint b) = (intDivE a b).map .bigint := by
  by_cases hb : b = 0 <;> by_cases hm : a % b = 0 <;>
    simp [NumOps.div, intDivE, hb, hm, Except.map]

theorem swapRows_lift (B : IGrid) (i p : ℕ) :
    swapRows (liftI B) i p = liftI (swapRowsInt B i p) := by
  funext r c
  unfold swapRows swapRowsInt liftI
  simp only []
  by_cases h1 : r = i
  · rw [if_pos h1, if_pos h1]
  · rw [if_neg h1, if_neg h1]
    by_cases h2 : r = p
    · rw [if_pos h2, if_pos h2]
    · rw [if_neg h2, if_neg h2]

theorem findPivot_lift (B : IGrid) (mrows row col : ℕ) :
    findPivot .bigint (liftI B) mrows row col = findPivotInt B mrows row col := rfl

theorem rankElimCol_lift (mrows col row : ℕ) (p : ℤ) (B : IGrid) (j : ℕ) :
    rankElimCol .bigint mrows col row (.bigint p) (liftI B) j =
      (rankElimColInt mrows col row p B j).map liftI := by
  unfold rankElimCol rankElimColInt
  by_cases hz : B row j = 0
  · simp [liftI, NumOps.isZero, hz, Except.map]
  · have hdz : decide (B row j = 0) = false := decide_eq_false hz
    rw [if_neg hz]
    simp only [liftI, NumOps.isZero, hdz, Bool.false_eq_true, if_false,
      div_bigint_lift]
    cases hd : intDivE (B row j) p with
    | error e => rfl
    | ok d =>
      show Except.ok _ = Except.ok _
      refine congrArg Except.ok ?_
      funext x c
      by_cases hc : c = j ∧ row + 1 ≤ x ∧ x < mrows <;>
        simp [liftI, hc, NumOps.sub, NumOps.mul]

theorem rankElim_lift (mrows n col row : ℕ) (p : ℤ) (B : IGrid) :
    rankElim .bigint mrows n col row (.bigint p) (liftI B) =
      (rankElimInt mrows n col row p B).map liftI := by
  unfold rankElim rankElimInt
  generalize List.range' (col + 1) (n - (col + 1)) = l
  induction l generalizing B with
  | nil => rfl
  | cons j rest ih =>
    rw [List.foldlM_cons, List.foldlM_cons, rankElimCol_lift]
    cases h : rankElimColInt mrows col row p B j with
    | error e => rfl
    | ok B2 => exact ih B2

theorem rankLoop_lift (mrows n : ℕ) :
    ∀ fuel col row B rk,
      rankLoop .bigint mrows n fuel col row (liftI B) rk =
        rankLoopInt mrows n fuel col row B rk := by
  intro fuel
  induction fuel with
  | zero => intro col row B rk; rfl
  | succ f ih =>
    intro col row B rk
    unfold rankLoop rankLoopInt
    by_cases hr : mrows ≤ row
    · simp [hr]
    · simp only [hr, if_false]
      rw [findPivot_lift]
      cases hp : findPivotInt B mrows row col with
      | none => exact ih (col + 1) row B rk
      | some sel =>
        simp only [swapRows_lift]
        have hpivot : liftI (swapRowsInt B row sel) row col =
            .bigint (swapRowsInt B row sel row col) := rfl
        rw [hpivot, rankElim_lift]
        cases he : rankElimInt mrows n col row (swapRowsInt B row sel row col)
            (swapRowsInt B row sel) with
        | error e => rfl
        | ok B2 => exact ih (col + 1) (row + 1) B2 (rk + 1)

/-- Claim C10: on an ArbitraryInteger-mode matrix, `rank()` performs its row
reduction in exact arbitrary-precision integer arithmetic (despite the
console warning, nothing is converted to Real): it computes precisely the
pure-integer row-echelon recursion `rankLoopInt`, whose divisions fail with
NonExactDivision whenever a pivot-row entry is not an exact multiple of the
pivot.  In particular rank of `[[2,3],[4,5]]` fails (see the witness). -/
theorem rank_bigint_exact (m : Matrix) (B : IGrid) (hm : m.mode = some .bigint)
    (hg : m.grid = liftI B) :
    (Matrix.rankS m).1 = rankLoopInt m.rows m.cols m.cols 0 0 B 0 := by
  unfold Matrix.rankS
  simp only [ensureMode_resolved m .bigint hm, modeD_resolved m .bigint hm, hg]
  exact rankLoop_lift m.rows m.cols m.cols 0 0 B 0

/-- Witness for C10: rank of the ArbitraryInteger matrix `[[2,3],[4,5]]`
fails with NonExactDivision (the first elimination step divides 3 by the
pivot 2). -/
theorem rank_bigint_exact_witness :
    (Matrix.rankS
        ⟨2, 2,
         liftI fun i j => if i = 0 then if j = 0 then 2 else 3
           else if j = 0 then 4 else 5,
         some .bigint⟩).1 = .error .nonExactDivision := by
  rw [rank_bigint_exact _
    (fun i j => if i = 0 then if j = 0 then 2 else 3 else if j = 0 then 4 else 5)
    rfl rfl]
  with_unfolding_all rfl

/-! ## Claim C2 -/

theorem coerce_inMode (μ : NumericMode) (v : Value) (h : v.inMode μ = true) :
    coerceToMode v μ = .ok v := by
  cases μ <;> cases v <;> simp [Value.inMode] at h <;> rfl

theorem zero_inMode (μ : NumericMode) : (NumOps.zero μ).inMode μ = true := by
  cases μ <;> rfl

theorem one_inMode (μ : NumericMode) : (NumOps.one μ).inMode μ = true := by
  cases μ <;> rfl

theorem mul_one_right (μ : NumericMode) (v : Value) (h : v.inMode μ = true) :
    NumOps.mul μ v (NumOps.one μ) = v := by
  cases μ <;> cases v <;> simp [Value.inMode] at h <;>
    simp [NumOps.mul, NumOps.one]

theorem mul_zero_right (μ : NumericMode) (v : Value) (h : v.inMode μ = true) :
    NumOps.mul μ v (NumOps.zero μ) = NumOps.zero μ := by
  cases μ <;> cases v <;> simp [Value.inMode] at h <;>
    simp [NumOps.mul, NumOps.zero]

theorem add_zero_right (μ : NumericMode) (v : Value) (h : v.inMode μ = true) :
    NumOps.add μ v (NumOps.zero μ) = v := by
  cases μ <;> cases v <;> simp [Value.inMode] at h <;>
    simp [NumOps.add, NumOps.zero]

theorem add_zero_left (μ : NumericMode) (v : Value) (h : v.inMode μ = true) :
    NumOps.add μ (NumOps.zero μ) v = v := by
  cases μ <;> cases v <;> simp [Value.inMode] at h <;>
    simp [NumOps.add, NumOps.zero]

theorem eq_refl_tol (μ : NumericMode) (v : Value) (tol : ℚ)
    (h : v.inMode μ = true) (ht : 0 < tol) : NumOps.eq μ v v tol = true := by
  cases μ <;> cases v <;> simp [Value.inMode] at h <;>
    simp [NumOps.eq, qabs, ht, lt_irrefl]

theorem combineMode_self (μ : NumericMode) : combineMode μ μ = μ := by
  cases μ <;> rfl

theorem foldlM_eq_foldl_of_ok (g : Value → ℕ → Except Err Value)
    (f : Value → ℕ → Value) :
    ∀ (l : List ℕ), (∀ s k, k ∈ l → g s k = .ok (f s k)) →
      ∀ init, l.foldlM g init = .ok (l.foldl f init) := by
  intro l
  induction l with
  | nil => intro _ init; rfl
  | cons k rest ih =>
    intro hfg init
    rw [List.foldlM_cons, hfg init k (List.mem_cons_self k rest)]
    exact ih (fun s k2 hk2 => hfg s k2 (List.mem_cons_of_mem k hk2)) (f init k)

theorem foldlM_unit_ok (g : Unit → ℕ → Except Err Unit) :
    ∀ (l : List ℕ), (∀ k ∈ l, g () k = .ok ()) → l.foldlM g () = .ok () := by
  intro l
  induction l with
  | nil => intro _; rfl
  | cons k rest ih =>
    intro h
    rw [List.foldlM_cons, h k (List.mem_cons_self k rest)]
    exact ih fun k2 hk2 => h k2 (List.mem_cons_of_mem k hk2)

theorem foldl_delta_zero (μ : NumericMode) (row : ℕ → Value) (j : ℕ) :
    ∀ m, m ≤ j → (∀ k, k < m → (row k).inMode μ = true) →
      (List.range m).foldl
        (fun s k => NumOps.add μ s (NumOps.mul μ (row k)
          (if k = j then NumOps.one μ else NumOps.zero μ)))
        (NumOps.zero μ) = NumOps.zero μ := by
  intro m
  induction m with
  | zero => intro _ _; rfl
  | succ mm ih =>
    intro hm hrow
    rw [List.range_succ, List.foldl_append,
      ih (le_trans (Nat.le_succ mm) hm) (fun k hk => hrow k (Nat.lt_succ_of_lt hk))]
    have hne : mm ≠ j := by omega
    show NumOps.add μ (NumOps.zero μ)
      (NumOps.mul μ (row mm) (if mm = j then NumOps.one μ else NumOps.zero μ)) =
      NumOps.zero μ
    rw [if_neg hne, mul_zero_right μ _ (hrow mm (Nat.lt_succ_self mm)),
      add_zero_right μ _ (zero_inMode μ)]

theorem foldl_delta (μ : NumericMode) (row : ℕ → Value) (j : ℕ) :
    ∀ m, j < m → (∀ k, k < m → (row k).inMode μ = true) →
      (List.range m).foldl
        (fun s k => NumOps.add μ s (NumOps.mul μ (row k)
          (if k = j then NumOps.one μ else NumOps.zero μ)))
        (NumOps.zero μ) = row j := by
  intro m
  induction m with
  | zero => intro hj; omega
  | succ mm ih =>
    intro hj hrow
    rw [List.range_succ, List.foldl_append]
    rcases Nat.lt_succ_iff_lt_or_eq.mp hj with hlt | heq
    · rw [ih hlt fun k hk => hrow k (Nat.lt_succ_of_lt hk)]
      have hne : mm ≠ j := by omega
      show NumOps.add μ (row j)
        (NumOps.mul μ (row mm) (if mm = j then NumOps.one μ else NumOps.zero μ)) =
        row j
      rw [if_neg hne, mul_zero_right μ _ (hrow mm (Nat.lt_succ_self mm)),
        add_zero_right μ _ (hrow j (Nat.lt_succ_of_lt hlt))]
    · subst heq
      rw [foldl_delta_zero μ row j j (le_refl j)
        fun k hk => hrow k (Nat.lt_succ_of_lt hk)]
      show NumOps.add μ (NumOps.zero μ)
        (NumOps.mul μ (row j) (if j = j then NumOps.one μ else NumOps.zero μ)) =
        row j
      rw [if_pos rfl, mul_one_right μ _ (hrow j (Nat.lt_succ_self j)),
        add_zero_left μ _ (hrow j (Nat.lt_succ_self j))]

theorem mulEntry_identity (μ : NumericMode) (a : Matrix) (n i j : ℕ)
    (hcols : a.cols = n) (hj : j < n)
    (ha : ∀ k, k < n → (a.grid i k).inMode μ = true) :
    mulEntry μ a (Matrix.identity n μ) i j = .ok (a.grid i j) := by
  unfold mulEntry
  rw [hcols]
  rw [foldlM_eq_foldl_of_ok _
    (fun s k => NumOps.add μ s (NumOps.mul μ (a.grid i k)
      (if k = j then NumOps.one μ else NumOps.zero μ)))
    (List.range n) ?_ (NumOps.zero μ)]
  · rw [foldl_delta μ (fun k => a.grid i k) j n hj ha]
  · intro s k hk
    rw [List.mem_range] at hk
    have hid : coerceToMode ((Matrix.identity n μ).grid k j) μ =
        .ok (if k = j then NumOps.one μ else NumOps.zero μ) := by
      show coerceToMode (if k = j then NumOps.one μ else NumOps.zero μ) μ = _
      by_cases hkj : k = j
      · rw [if_pos hkj, coerce_inMode μ _ (one_inMode μ)]
      · rw [if_neg hkj, coerce_inMode μ _ (zero_inMode μ)]
    show (do
      let av ← coerceToMode (a.grid i k) μ
      let bv ← coerceToMode ((Matrix.identity n μ).grid k j) μ
      pure (NumOps.add μ s (NumOps.mul μ av bv))) = _
    rw [coerce_inMode μ _ (ha k hk), hid]
    rfl

/-- Claim C2 (amended): for every square matrix with a resolved mode *and
entries of the shape that mode expects* (the representability invariant of
spec §3), multiplying on the right by `Matrix.identity(n, A.mode)` succeeds,
and the result `equals` the original matrix at the default tolerance.  The
invariant is needed: a Complex-mode matrix can hold raw Number entries
(mode detection does not convert them), and then `equals` compares a
computed complex entry against a raw number, which is false under the NaN
semantics of `complexEq` — see the counterexample. -/
theorem multiply_identity_equals (m : Matrix) (μ : NumericMode)
    (hm : m.mode = some μ)
    (hw : ∀ i, i < m.rows → ∀ j, j < m.cols → (m.grid i j).inMode μ = true)
    (hsq : m.rows = m.cols) :
    ∃ r, m.multiply (Matrix.identity m.rows μ) = .ok r ∧
      r.equals m defaultTol = true := by
  have hconv : ∀ i j, i ∈ List.range m.rows → j ∈ List.range m.rows →
      mulEntry μ m (Matrix.identity m.rows μ) i j = .ok (m.grid i j) := by
    intro i j hi hj
    rw [List.mem_range] at hi hj
    exact mulEntry_identity μ m m.rows i j hsq.symm hj
      fun k hk => hw i hi k (by omega)
  have he1 : Matrix.ensureMode m = m := ensureMode_resolved m μ hm
  have he2 : Matrix.ensureMode (Matrix.identity m.rows μ) = Matrix.identity m.rows μ :=
    ensureMode_resolved _ μ rfl
  have hcols : (Matrix.identity m.rows μ).cols = m.rows := rfl
  have hrows : (Matrix.identity m.rows μ).rows = m.rows := rfl
  have hmul : m.multiply (Matrix.identity m.rows μ) =
      .ok ⟨m.rows, m.rows,
        fun i j => exceptD (mulEntry μ m (Matrix.identity m.rows μ) i j)
          (NumOps.zero μ),
        some μ⟩ := by
    unfold Matrix.multiply
    rw [if_neg (by rw [hrows]; omega)]
    simp only [he1, he2, modeD_resolved m μ hm,
      modeD_resolved (Matrix.identity m.rows μ) μ rfl, combineMode_self, hcols]
    rw [foldlM_unit_ok _ (List.range m.rows) ?_]
    · rfl
    · intro i hi
      rw [foldlM_unit_ok _ (List.range m.rows) ?_]
      intro j hj
      rw [hconv i j hi hj]
      rfl
  refine ⟨_, hmul, ?_⟩
  unfold Matrix.equals
  rw [if_pos ⟨rfl, hsq⟩]
  have he3 : Matrix.ensureMode
      ⟨m.rows, m.rows,
        fun i j => exceptD (mulEntry μ m (Matrix.identity m.rows μ) i j)
          (NumOps.zero μ), some μ⟩ =
      ⟨m.rows, m.rows,
        fun i j => exceptD (mulEntry μ m (Matrix.identity m.rows μ) i j)
          (NumOps.zero μ), some μ⟩ :=
    ensureMode_resolved _ μ rfl
  simp only [he1, he3, modeD_resolved m μ hm]
  rw [if_pos (modeD_resolved _ μ rfl)]
  rw [List.all_eq_true]
  intro i hi
  rw [List.all_eq_true]
  intro j hj
  show NumOps.eq μ
    (exceptD (mulEntry μ m (Matrix.identity m.rows μ) i j) (NumOps.zero μ))
    (m.grid i j) defaultTol = true
  rw [hconv i j hi hj]
  rw [List.mem_range] at hi hj
  show NumOps.eq μ (m.grid i j) (m.grid i j) defaultTol = true
  exact eq_refl_tol μ _ defaultTol (hw i hi j (by omega)) (by norm_num [defaultTol])

/-- Witness for C2 at the Real matrix `[[1,2],[3,4]]`. -/
theorem multiply_identity_equals_witness :
    ∃ r, Matrix.multiply
        ⟨2, 2, gridOfLists [[.real 1, .real 2], [.real 3, .real 4]], some .number⟩
        (Matrix.identity 2 .number) = .ok r ∧
      r.equals
        ⟨2, 2, gridOfLists [[.real 1, .real 2], [.real 3, .real 4]], some .number⟩
        defaultTol = true :=
  multiply_identity_equals
    ⟨2, 2, gridOfLists [[.real 1, .real 2], [.real 3, .real 4]], some .number⟩
    .number rfl (by with_unfolding_all decide) rfl

/-- Counterexample to C2 as stated: the Complex-mode matrix built by
`fromArray([[1+1i, 2], [3, 4]])` keeps its raw Number entries (detection does
not convert them in Complex mode).  Multiplying by `identity(2, complex)`
succeeds, but `equals` then compares the computed complex entry `2+0i`
against the raw number `2` with `complexEq`, whose `b.re` is `undefined` —
`NaN < tol` is false — so `A.multiply(I).equals(A)` is `false` for this
square matrix with finite entries. -/
theorem multiply_identity_equals_cex :
    Matrix.fromArray [[.cplx 1 1, .real 2], [.real 3, .real 4]] =
        .ok ⟨2, 2, gridOfLists [[.cplx 1 1, .real 2], [.real 3, .real 4]],
          some .complex⟩ ∧
      (Matrix.multiply
          ⟨2, 2, gridOfLists [[.cplx 1 1, .real 2], [.real 3, .real 4]],
           some .complex⟩
          (Matrix.identity 2 .complex)).map
        (fun r => r.equals
          ⟨2, 2, gridOfLists [[.cplx 1 1, .real 2], [.real 3, .real 4]],
           some .complex⟩ defaultTol) = .ok false := by
  constructor
  · with_unfolding_all rfl
  · with_unfolding_all rfl

/-! ## Claim C1 -/

theorem detLoop_eq_trace (μ : NumericMode) (n : ℕ) :
    ∀ fuel i A det sign,
      detLoop μ n fuel i A det sign =
        (detTrace μ n fuel i A).map fun o =>
          match o with
          | none => NumOps.zero μ
          | some (pivs, s) =>
            if xor sign (decide (s % 2 = 1)) then
              jsNegEnd μ (pivs.foldl (NumOps.mul μ) det)
            else pivs.foldl (NumOps.mul μ) det := by
  intro fuel
  induction fuel with
  | zero =>
    intro i A det sign
    simp [detLoop, detTrace, Except.map]
  | succ f ih =>
    intro i A det sign
    rw [detLoop, detTrace]
    cases hp : findPivot μ A n i i with
    | none => simp [Except.map]
    | some p =>
      simp only []
      cases he : elimBelow μ n i (swapRows A i p i i) (swapRows A i p) with
      | error e => rfl
      | ok A2 =>
        simp only []
        rw [ih]
        cases ht : detTrace μ n f (i + 1) A2 with
        | error e => rfl
        | ok o =>
          cases o with
          | none => rfl
          | some pr =>
            obtain ⟨pivs, s⟩ := pr
            show Except.ok _ = Except.ok _
            refine congrArg Except.ok ?_
            by_cases hpi : p = i
            · simp [hpi]
            · rcases Nat.mod_two_eq_zero_or_one s with hs | hs
              · have hs1 : (1 + s) % 2 = 1 := by omega
                simp [hpi, hs, hs1]
              · have hs1 : (1 + s) % 2 = 0 := by omega
                simp [hpi, hs, hs1]

/-- Claim C1 (amended): for every square matrix whose mode is resolved,
`determinant()` follows the elimination contract up to two corrections
visible in the code: when some column has no nonzero entry at or below the
current row the additive identity is returned (early exit); otherwise the
returned value is the product of the selected pivots, passed through the
final `det = -det` when an odd number of swaps occurred — which is the
mode's negation for Real/ArbitraryInteger but yields NaN in Complex mode
(unary minus on a complex object); and any division failure during
elimination (BigInt non-exact division) propagates as an error instead of
producing a value.  In particular `[[1,2],[3,4]]` in Real mode gives -2
(see the witness). -/
theorem determinant_contract (m : Matrix) (μ : NumericMode)
    (hm : m.mode = some μ) (hsq : m.rows = m.cols) :
    (Matrix.determinantS m).1 =
      (detTrace μ m.rows m.rows 0 m.grid).map (interpDet μ) := by
  unfold Matrix.determinantS
  rw [if_neg (by omega)]
  simp only [ensureMode_resolved m μ hm, modeD_resolved m μ hm]
  rw [detLoop_eq_trace μ m.rows m.rows 0 m.grid (NumOps.one μ) false]
  cases ht : detTrace μ m.rows m.rows 0 m.grid with
  | error e => rfl
  | ok o =>
    cases o with
    | none => rfl
    | some pr =>
      obtain ⟨pivs, s⟩ := pr
      show Except.ok _ = Except.ok _
      refine congrArg Except.ok ?_
      unfold interpDet pivotProduct
      by_cases hodd : s % 2 = 1 <;> simp [hodd]

/-- Witness for C1: the determinant of the Real matrix `[[1,2],[3,4]]` is
exactly -2, computed through the elimination contract. -/
theorem determinant_contract_witness :
    (Matrix.determinantS
        ⟨2, 2, gridOfLists [[.real 1, .real 2], [.real 3, .real 4]],
         some .number⟩).1 = .ok (.real (-2)) := by
  rw [determinant_contract _ .number rfl rfl]
  with_unfolding_all rfl

/-- Counterexample to C1 as stated: for the Complex permutation matrix
`[[0,1],[1,0]]` the elimination performs one swap and selects the pivots
`1+0i, 1+0i`; the claim requires the negated pivot product `-1+0i`, but the
final `det = -det` applies JS unary minus to a complex object and the call
returns NaN. -/
theorem determinant_contract_cex :
    (Matrix.determinantS
        ⟨2, 2, gridOfLists [[.cplx 0 0, .cplx 1 0], [.cplx 1 0, .cplx 0 0]],
         some .complex⟩).1 = .ok .nan ∧
      Value.nan ≠ Value.cplx (-1) 0 :=
  ⟨by with_unfolding_all rfl, fun h => Value.noConfusion h⟩

end Atlas
